import Mathlib

/-!
# Verification of the airline-demo client reconciler and sync protocol

Shallow embedding of the repository's event pipeline:

* `normalizeEvents` — the progress-staleness filter of the `Home` component
  (the bootstrap path of the Next.js page).
* `groupRunnerEvents` — the display grouping of `runner-output.tsx`.
* the `AgentPanel` runner-event type filter.
* `fetchThreadState` / `fetchBootstrapState` — the API layer's error handling.
* `hydrateState` and the bootstrap effect — the client state updates.
* spec-modelled components (delta merge, orchestration tool invocation) whose
  implementation lives in the Python backend, outside the TypeScript sources.

Timestamps are modelled as `Nat` milliseconds (JavaScript `Date.getTime()`).
-/

/-- Event type tags of the wire protocol (`type` field of an event). -/
inductive EventType
  | message
  | tool_call
  | tool_output
  | handoff
  | context_update
  | progress_update
  | guardrail_check
  deriving DecidableEq

/-- A client-side agent event, after timestamp parsing: `timestamp` is
`Date.getTime()` in milliseconds. Mirrors the `AgentEvent` shape used by the UI. -/
structure AgentEvent where
  id : Nat
  type : EventType
  agent : String
  content : String
  metadata : List (String × String)
  timestamp : Nat
  deriving DecidableEq

/-- `latestNonProgress` from `normalizeEvents`: the reduce over the non-progress
events' timestamps with initial accumulator `0`. -/
def latestNonProgress (items : List AgentEvent) : Nat :=
  (items.filter (fun e => e.type ≠ EventType.progress_update)).foldl
    (fun m e => max m e.timestamp) 0

/-- The per-event predicate of the `pruned` filter in `normalizeEvents`:
non-progress events always pass; a `progress_update` is dropped once a newer
non-progress event exists (`latestNonProgress` truthy and `ts < latestNonProgress`)
or when it is older than 15 seconds. -/
def keepEvent (now lnp : Nat) (e : AgentEvent) : Bool :=
  if e.type ≠ EventType.progress_update then true
  else if lnp ≠ 0 ∧ e.timestamp < lnp then false
  else if now - e.timestamp > 15000 then false
  else true

/-- `normalizeEvents` from the `Home` component: early return on an empty list,
otherwise filter with the staleness predicate. -/
def normalizeEvents (now : Nat) (items : List AgentEvent) : List AgentEvent :=
  if items.isEmpty then items
  else items.filter (keepEvent now (latestNonProgress items))

/-- The inner while-loop condition of `groupRunnerEvents`: the next event is a
`tool_output` attributed to the same agent as the leading `tool_call`. -/
def isPairedOutput (agent : String) (e : AgentEvent) : Bool :=
  e.type = EventType.tool_output ∧ e.agent = agent

/-- `groupRunnerEvents` from `runner-output.tsx`: a `tool_call` swallows the
maximal run of immediately following `tool_output` events of the same agent
(the `while` loop, here `takeWhile`/`dropWhile`); every other event becomes a
singleton group. -/
def groupRunnerEvents : List AgentEvent → List (List AgentEvent)
  | [] => []
  | e :: rest =>
    if e.type = EventType.tool_call then
      (e :: rest.takeWhile (isPairedOutput e.agent)) ::
        groupRunnerEvents (rest.dropWhile (isPairedOutput e.agent))
    else
      [e] :: groupRunnerEvents rest
termination_by l => l.length
decreasing_by
  · exact Nat.lt_succ_of_le (List.Sublist.length_le (List.dropWhile_sublist _))
  · exact Nat.lt_succ_self _

/-- The `AgentPanel` runner-event selection: `events.filter` keeping everything
that is neither a `message` nor a `progress_update`. -/
def runnerEventsOf (events : List AgentEvent) : List AgentEvent :=
  events.filter
    (fun e => e.type ≠ EventType.message ∧ e.type ≠ EventType.progress_update)

/-- The full client display pipeline on the bootstrap path: staleness filter
(`normalizeEvents` in `Home`), then the `AgentPanel` type filter, then the
`RunnerOutput` grouping. -/
def displayGroups (now : Nat) (events : List AgentEvent) : List (List AgentEvent) :=
  groupRunnerEvents (runnerEventsOf (normalizeEvents now events))

/-- Agent record of the wire protocol. -/
structure Agent where
  name : String
  description : String
  input_guardrails : List String
  tools : List String
  handoffs : List String
  deriving DecidableEq

/-- Parsed guardrail check on the client (`timestamp` already a `Date`). -/
structure GuardrailCheck where
  id : Nat
  name : String
  agent : String
  passed : Bool
  timestamp : Nat
  deriving DecidableEq

/-- An event as delivered on the wire, before the client parses the timestamp:
the `timestamp` field may be absent (`e.timestamp ?? Date.now()`). -/
structure WireEvent where
  id : Nat
  type : EventType
  agent : String
  content : String
  metadata : List (String × String)
  timestamp : Option Nat
  deriving DecidableEq

/-- A guardrail check as delivered on the wire. -/
structure WireGuardrail where
  id : Nat
  name : String
  agent : String
  passed : Bool
  timestamp : Option Nat
  deriving DecidableEq

/-- The client's timestamp parsing: `new Date(e.timestamp ?? Date.now())`. -/
def parseWireEvent (now : Nat) (e : WireEvent) : AgentEvent :=
  { id := e.id, type := e.type, agent := e.agent, content := e.content,
    metadata := e.metadata, timestamp := e.timestamp.getD now }

/-- Timestamp parsing for guardrail entries: `new Date(g.timestamp ?? Date.now())`. -/
def parseWireGuardrail (now : Nat) (g : WireGuardrail) : GuardrailCheck :=
  { id := g.id, name := g.name, agent := g.agent, passed := g.passed,
    timestamp := g.timestamp.getD now }

/-- The snapshot payload served by `/chatkit/state` and `/chatkit/bootstrap`:
every field may be absent from the JSON body. -/
structure Snapshot where
  thread_id : Option String
  current_agent : Option String
  agents : Option (List Agent)
  context : Option (List (String × String))
  events : Option (List WireEvent)
  guardrails : Option (List WireGuardrail)
  deriving DecidableEq

/-- Outcome of one HTTP fetch against the backend. -/
inductive FetchOutcome where
  | ok (payload : Snapshot)
  | httpError (status : Nat)
  | networkError
  deriving DecidableEq

/-- `fetchThreadState` from the API module: a non-OK response throws inside the
`try`, the `catch` returns `null`; a network error is caught the same way. -/
def fetchThreadState : FetchOutcome → Option Snapshot
  | FetchOutcome.ok payload => some payload
  | FetchOutcome.httpError _ => none
  | FetchOutcome.networkError => none

/-- `fetchBootstrapState` from the API module: identical error shape. -/
def fetchBootstrapState : FetchOutcome → Option Snapshot
  | FetchOutcome.ok payload => some payload
  | FetchOutcome.httpError _ => none
  | FetchOutcome.networkError => none

/-- The `Home` component's React state relevant to the display. -/
structure ClientState where
  agents : List Agent
  events : List AgentEvent
  currentAgent : String
  guardrails : List GuardrailCheck
  context : List (String × String)
  threadId : Option String
  initialThreadId : Option String
  deriving DecidableEq

/-- `hydrateState(id)` from `Home`: early return on a falsy id (`!id`), early
return when `fetchThreadState` yields `null`; otherwise overwrite
`currentAgent` and `context` unconditionally (with falsy fallbacks) and
`agents` / `events` / `guardrails` only when the payload carries an array,
parsing timestamps but applying no staleness filter. -/
def hydrateState (now : Nat) (id : Option String) (resp : FetchOutcome)
    (s : ClientState) : ClientState :=
  if id = none ∨ id = some "" then s
  else
    match fetchThreadState resp with
    | none => s
    | some d =>
      { s with
        currentAgent := d.current_agent.getD "",
        context := d.context.getD [],
        agents := d.agents.getD s.agents,
        events :=
          match d.events with
          | some evs => evs.map (parseWireEvent now)
          | none => s.events,
        guardrails :=
          match d.guardrails with
          | some gs => gs.map (parseWireGuardrail now)
          | none => s.guardrails }

/-- `bootstrap.thread_id || null`: an empty string binds no thread. -/
def bootThreadId : Option String → Option String
  | some t => if t = "" then none else some t
  | none => none

/-- The bootstrap effect of `Home` (runs once on mount): on a `null` result it
returns early; otherwise it binds the thread id, conditionally overwrites the
truthy fields, and stores the events through `normalizeEvents` after timestamp
parsing. -/
def bootstrapApply (now : Nat) (resp : FetchOutcome) (s : ClientState) :
    ClientState :=
  match fetchBootstrapState resp with
  | none => s
  | some b =>
    { s with
      initialThreadId := bootThreadId b.thread_id,
      threadId := bootThreadId b.thread_id,
      currentAgent :=
        match b.current_agent with
        | some a => if a = "" then s.currentAgent else a
        | none => s.currentAgent,
      agents := b.agents.getD s.agents,
      context := b.context.getD s.context,
      events :=
        match b.events with
        | some evs => normalizeEvents now (evs.map (parseWireEvent now))
        | none => s.events,
      guardrails :=
        match b.guardrails with
        | some gs => gs.map (parseWireGuardrail now)
        | none => s.guardrails }

/-- A read request the client can issue against the sync surface. -/
inductive ClientRequest where
  | bootstrapRead
  | stateRead (threadId : String)
  deriving DecidableEq

/-- The follow-up requests `hydrateState` issues after its `fetchThreadState`
call resolves: the source returns early on a `null` (not-found) result and
issues no further fetch on any path. -/
def hydrateFollowUps (_ : FetchOutcome) : List ClientRequest := []

/-- Modelled from the spec: the ClientReconciler's delta **Merge** (§4.4).
No delta consumer exists under the TypeScript sources — `Home` passes no
`onRunnerEventDelta` handler to `ChatKitPanel`, so the merge step itself is
missing from the repository. Faithful to the spec's words: appending a delta
batch to the known sequence, idempotent by event id — an already-known id is
not appended again and the existing order is untouched. -/
def mergeDelta (known : List AgentEvent) (batch : List AgentEvent) :
    List AgentEvent :=
  known ++ batch.filter (fun e => ! known.any (fun k => k.id == e.id))

/-- Outcome of one external tool execution, as seen by the engine. -/
inductive ToolOutcome where
  | success (result : String)
  | failure (error : String)
  | timeout
  deriving DecidableEq

/-- Metadata of the `tool_output` event: the result on success, an
error-shaped payload on failure or timeout. -/
def toolOutputMetadata : ToolOutcome → List (String × String)
  | ToolOutcome.success r => [("tool_result", r)]
  | ToolOutcome.failure err => [("error", err)]
  | ToolOutcome.timeout => [("error", "timeout")]

/-- The `tool_call` event the engine appends before invoking the executor. -/
def mkToolCall (eid : Nat) (agent tool args : String) (t : Nat) : AgentEvent :=
  { id := eid, type := EventType.tool_call, agent := agent, content := tool,
    metadata := [("tool_name", tool), ("tool_args", args)], timestamp := t }

/-- The `tool_output` event the engine appends after completion or timeout. -/
def mkToolOutput (eid : Nat) (agent : String) (outcome : ToolOutcome) (t : Nat) :
    AgentEvent :=
  { id := eid, type := EventType.tool_output, agent := agent, content := "",
    metadata := toolOutputMetadata outcome, timestamp := t }

/-- Modelled from the spec: the OrchestrationEngine's tool-invocation step
(§4.1) — the engine itself is the Python backend, absent from the TypeScript
sources. The engine appends a `tool_call` event before invoking the external
tool executor, then appends exactly one `tool_output` event after completion
or timeout, carrying the result or an error payload, also on failure. -/
def runToolInvocation (log : List AgentEvent) (callId outId : Nat)
    (agent tool args : String) (outcome : ToolOutcome) (t1 t2 : Nat) :
    List AgentEvent :=
  (log ++ [mkToolCall callId agent tool args t1]) ++
    [mkToolOutput outId agent outcome t2]

/-- A log is paired when every `tool_call` in it is followed, later in the
log, by a `tool_output` attributed to the same agent. -/
def PairedLog (log : List AgentEvent) : Prop :=
  ∀ (i : Nat) (e : AgentEvent), log[i]? = some e →
    e.type = EventType.tool_call →
    ∃ (j : Nat) (f : AgentEvent), i < j ∧ log[j]? = some f ∧
      f.type = EventType.tool_output ∧ f.agent = e.agent

/-- Spec shape of one display group: nonempty; a group led by a `tool_call`
holds only `tool_output` events of the same agent after it; any other group
is a singleton. -/
def GroupShape : List AgentEvent → Prop
  | [] => False
  | e :: tail =>
    if e.type = EventType.tool_call then
      ∀ x ∈ tail, x.type = EventType.tool_output ∧ x.agent = e.agent
    else tail = []

/-- Maximality at a group boundary: a group led by a `tool_call` is never
followed by a group starting with a same-agent `tool_output` (the run was
maximal). -/
def GroupBoundary : List AgentEvent → List AgentEvent → Prop
  | e :: _, f :: _ =>
    e.type = EventType.tool_call → isPairedOutput e.agent f = false
  | _, _ => True

/-- Sample progress event used in concrete evaluations. -/
def progressAt (eid ts : Nat) : AgentEvent :=
  { id := eid, type := EventType.progress_update, agent := "Triage",
    content := "working", metadata := [], timestamp := ts }

/-- Sample message event used in concrete evaluations. -/
def messageAt (eid ts : Nat) : AgentEvent :=
  { id := eid, type := EventType.message, agent := "Triage",
    content := "hello", metadata := [], timestamp := ts }

/-- Sample client state with a bound thread, used in concrete evaluations. -/
def sampleState : ClientState :=
  { agents := [], events := [messageAt 0 5], currentAgent := "Triage",
    guardrails := [], context := [("passenger", "Ada")],
    threadId := some "thread-1", initialThreadId := some "thread-1" }

/-! ## Staleness filter lemmas -/

theorem keepEvent_progress_iff (now lnp : Nat) (e : AgentEvent)
    (h : e.type = EventType.progress_update) :
    keepEvent now lnp e = true ↔
      (lnp ≤ e.timestamp ∧ now - e.timestamp ≤ 15000) := by
  unfold keepEvent
  rw [if_neg (by simp [h])]
  by_cases h1 : lnp ≠ 0 ∧ e.timestamp < lnp
  · rw [if_pos h1]
    simp only [Bool.false_eq_true, false_iff]
    omega
  · rw [if_neg h1]
    by_cases h2 : now - e.timestamp > 15000
    · rw [if_pos h2]
      simp only [Bool.false_eq_true, false_iff]
      omega
    · rw [if_neg h2]
      simp only [true_iff]
      omega

theorem mem_normalizeEvents_progress (now : Nat) (items : List AgentEvent)
    (e : AgentEvent) (h : e.type = EventType.progress_update) :
    e ∈ normalizeEvents now items ↔
      (e ∈ items ∧ latestNonProgress items ≤ e.timestamp ∧
        now - e.timestamp ≤ 15000) := by
  unfold normalizeEvents
  by_cases hemp : items.isEmpty
  · rw [if_pos hemp]
    rw [List.isEmpty_iff] at hemp
    subst hemp
    simp
  · rw [if_neg hemp, List.mem_filter,
      keepEvent_progress_iff now (latestNonProgress items) e h]

/-! ## C1 — progress staleness filter retention -/

/-- Claim C1, counterexample to the strict age bound: at evaluation time 15000
ms, a progress_update stamped 0 has age exactly 15 seconds — not strictly
below 15 — yet `normalizeEvents` retains it, because the source drops a
progress event only when it is strictly older than 15000 ms. -/
theorem normalizeEvents_age_boundary_retained :
    progressAt 1 0 ∈ normalizeEvents 15000 [messageAt 0 0, progressAt 1 0] ∧
      ¬ (15000 - (progressAt 1 0).timestamp < 15000) := by decide

/-- Claim C1 (amended): the filter retains a progress_update iff its timestamp
is at least the maximum non-progress timestamp (with 0 for an empty maximum)
and its age, now minus timestamp, is at most 15 seconds; every progress_update
failing either condition is dropped. -/
theorem normalizeEvents_progress_retained_iff (now : Nat)
    (items : List AgentEvent) (e : AgentEvent)
    (h : e.type = EventType.progress_update) :
    e ∈ normalizeEvents now items ↔
      (e ∈ items ∧ latestNonProgress items ≤ e.timestamp ∧
        now - e.timestamp ≤ 15000) :=
  mem_normalizeEvents_progress now items e h

/-- Claim C1, witness: the amended retention criterion evaluated on a concrete
fresh progress_update following a message. -/
theorem normalizeEvents_progress_retained_iff_witness :
    progressAt 1 10 ∈ normalizeEvents 20 [messageAt 0 5, progressAt 1 10] ↔
      (progressAt 1 10 ∈ [messageAt 0 5, progressAt 1 10] ∧
        latestNonProgress [messageAt 0 5, progressAt 1 10] ≤
          (progressAt 1 10).timestamp ∧
        20 - (progressAt 1 10).timestamp ≤ 15000) :=
  normalizeEvents_progress_retained_iff 20 [messageAt 0 5, progressAt 1 10]
    (progressAt 1 10) (by decide)

/-! ## C3 — how many progress events stay visible -/

/-- Claim C3, counterexample: two fresh progress_update events sharing the
maximal timestamp (here with no non-progress event at all) are both retained,
so the displayed sequence can contain two progress_update events. -/
theorem normalizeEvents_two_progress_visible :
    ((normalizeEvents 0 [progressAt 1 0, progressAt 2 0]).countP
      (fun e => e.type = EventType.progress_update)) = 2 := by decide

/-- Claim C3 (amended): every progress_update retained by the filter has
timestamp at least the maximal non-progress timestamp and age at most 15
seconds — so no retained progress_update is older than that maximum — but
several progress_update events meeting both conditions may all stay visible. -/
theorem normalizeEvents_retained_progress_fresh (now : Nat)
    (items : List AgentEvent) (e : AgentEvent)
    (h1 : e ∈ normalizeEvents now items)
    (h2 : e.type = EventType.progress_update) :
    latestNonProgress items ≤ e.timestamp ∧ now - e.timestamp ≤ 15000 :=
  ((mem_normalizeEvents_progress now items e h2).mp h1).2

/-- Claim C3, witness: the freshness bound evaluated on a concrete retained
progress_update. -/
theorem normalizeEvents_retained_progress_fresh_witness :
    latestNonProgress [messageAt 0 5, progressAt 1 10] ≤
        (progressAt 1 10).timestamp ∧
      20 - (progressAt 1 10).timestamp ≤ 15000 :=
  normalizeEvents_retained_progress_fresh 20 [messageAt 0 5, progressAt 1 10]
    (progressAt 1 10) (by decide) (by decide)

/-! ## Grouping lemmas -/

theorem groupRunnerEvents_flatten (events : List AgentEvent) :
    (groupRunnerEvents events).flatten = events := by
  induction events using groupRunnerEvents.induct with
  | case1 => rw [groupRunnerEvents]; rfl
  | case2 e rest h ih =>
    rw [groupRunnerEvents, if_pos h]
    simp only [List.flatten_cons, List.cons_append, List.cons.injEq, true_and]
    rw [ih, List.takeWhile_append_dropWhile]
  | case3 e rest h ih =>
    rw [groupRunnerEvents, if_neg h]
    simp [ih]

theorem dropWhile_head_not (p : AgentEvent → Bool) (l : List AgentEvent) :
    ∀ f t, l.dropWhile p = f :: t → p f = false := by
  induction l with
  | nil => intro f t hft; simp at hft
  | cons a l ih =>
    intro f t hft
    rw [List.dropWhile_cons] at hft
    by_cases hp : p a
    · rw [if_pos hp] at hft
      exact ih f t hft
    · rw [if_neg hp] at hft
      cases hft
      exact Bool.eq_false_iff.mpr hp

theorem groupRunnerEvents_cons_head (f : AgentEvent) (rest : List AgentEvent) :
    ∃ tail gs, groupRunnerEvents (f :: rest) = (f :: tail) :: gs := by
  rw [groupRunnerEvents]
  by_cases h : f.type = EventType.tool_call
  · rw [if_pos h]
    exact ⟨_, _, rfl⟩
  · rw [if_neg h]
    exact ⟨[], _, rfl⟩

theorem GroupShape_cons (e : AgentEvent) (tail : List AgentEvent) :
    GroupShape (e :: tail) ↔
      if e.type = EventType.tool_call then
        ∀ x ∈ tail, x.type = EventType.tool_output ∧ x.agent = e.agent
      else tail = [] :=
  Iff.rfl

theorem GroupBoundary_cons (e f : AgentEvent) (g g2 : List AgentEvent) :
    GroupBoundary (e :: g) (f :: g2) ↔
      (e.type = EventType.tool_call → isPairedOutput e.agent f = false) :=
  Iff.rfl

theorem groupRunnerEvents_shape (events : List AgentEvent) :
    ∀ g ∈ groupRunnerEvents events, GroupShape g := by
  induction events using groupRunnerEvents.induct with
  | case1 =>
    rw [groupRunnerEvents]
    intro g hg
    simp at hg
  | case2 e rest h ih =>
    rw [groupRunnerEvents, if_pos h]
    intro g hg
    rcases List.mem_cons.mp hg with rfl | hg
    · rw [GroupShape_cons, if_pos h]
      intro x hx
      have hx2 := List.mem_takeWhile_imp hx
      simpa [isPairedOutput] using hx2
    · exact ih g hg
  | case3 e rest h ih =>
    rw [groupRunnerEvents, if_neg h]
    intro g hg
    rcases List.mem_cons.mp hg with rfl | hg
    · rw [GroupShape_cons, if_neg h]
    · exact ih g hg

theorem groupRunnerEvents_chain (events : List AgentEvent) :
    List.Chain' GroupBoundary (groupRunnerEvents events) := by
  induction events using groupRunnerEvents.induct with
  | case1 =>
    rw [groupRunnerEvents]
    exact List.chain'_nil
  | case2 e rest h ih =>
    rw [groupRunnerEvents, if_pos h]
    rw [List.chain'_cons']
    refine ⟨?_, ih⟩
    intro b hb
    cases hd : rest.dropWhile (isPairedOutput e.agent) with
    | nil =>
      rw [hd, groupRunnerEvents] at hb
      simp at hb
    | cons f t =>
      rw [hd] at hb
      obtain ⟨tail, gs, hg⟩ := groupRunnerEvents_cons_head f t
      rw [hg] at hb
      simp at hb
      subst hb
      rw [GroupBoundary_cons]
      intro _
      exact dropWhile_head_not _ rest f t hd
  | case3 e rest h ih =>
    rw [groupRunnerEvents, if_neg h]
    rw [List.chain'_cons']
    refine ⟨?_, ih⟩
    intro b hb
    cases b with
    | nil => trivial
    | cons f t =>
      rw [GroupBoundary_cons]
      intro he
      exact absurd he h

/-! ## C4 — grouping is a total order-preserving partition -/

/-- Claim C4: the display grouping partitions the sequence, preserving order —
concatenating the groups in order yields exactly the input, so every event is
in exactly one group; each group is either a `tool_call` followed by zero or
more `tool_output` events of the same agent, or a singleton; and every
`tool_call` run is maximal (the following group never starts with a
same-agent `tool_output`). -/
theorem groupRunnerEvents_partition (events : List AgentEvent) :
    (groupRunnerEvents events).flatten = events ∧
      (∀ g ∈ groupRunnerEvents events, GroupShape g) ∧
      List.Chain' GroupBoundary (groupRunnerEvents events) :=
  ⟨groupRunnerEvents_flatten events, groupRunnerEvents_shape events,
    groupRunnerEvents_chain events⟩

/-! ## C6 — grouping is idempotent -/

/-- Claim C6: flattening the display groups and grouping again yields the same
groups as grouping once. -/
theorem groupRunnerEvents_idem (events : List AgentEvent) :
    groupRunnerEvents ((groupRunnerEvents events).flatten) =
      groupRunnerEvents events := by
  rw [groupRunnerEvents_flatten]

/-! ## C7 — the concrete pipeline example -/

/-- Sample tool_call event of agent A for the pipeline example. -/
def exToolCall : AgentEvent :=
  { id := 1, type := EventType.tool_call, agent := "A", content := "lookup",
    metadata := [("tool_args", "14C")], timestamp := 50 }

/-- Sample progress_update stamped 0 for the pipeline example. -/
def exProgress : AgentEvent :=
  { id := 2, type := EventType.progress_update, agent := "A",
    content := "working", metadata := [], timestamp := 0 }

/-- Sample tool_output of agent A carrying result ok for the pipeline example. -/
def exToolOutput : AgentEvent :=
  { id := 3, type := EventType.tool_output, agent := "A", content := "",
    metadata := [("tool_result", "ok")], timestamp := 90 }

/-- Claim C7: on the example sequence tool_call, progress_update stamped 0,
tool_output, evaluated at 100 ms, the full pipeline — staleness filter, then
the runner-event type filter, then grouping — yields the single group of the
tool_call with its tool_output; the progress_update is dropped because a newer
non-progress event exists. -/
theorem displayGroups_example :
    displayGroups 100 [exToolCall, exProgress, exToolOutput] =
      [[exToolCall, exToolOutput]] := by
  have h1 : runnerEventsOf
      (normalizeEvents 100 [exToolCall, exProgress, exToolOutput]) =
      [exToolCall, exToolOutput] := by decide
  unfold displayGroups
  rw [h1, groupRunnerEvents,
    if_pos (show exToolCall.type = EventType.tool_call by decide),
    show List.takeWhile (isPairedOutput exToolCall.agent) [exToolOutput] =
      [exToolOutput] by decide,
    show List.dropWhile (isPairedOutput exToolCall.agent) [exToolOutput] =
      ([] : List AgentEvent) by decide,
    groupRunnerEvents]

/-! ## C2 — delta merge is idempotent by event id -/

theorem mergeDelta_filter_nil (known batch : List AgentEvent) :
    batch.filter
      (fun e => ! (mergeDelta known batch).any (fun k => k.id == e.id)) =
      [] := by
  rw [List.filter_eq_nil_iff]
  intro e he
  simp only [Bool.not_eq_true, Bool.not_eq_eq_eq_not, Bool.not_true]
  rw [mergeDelta, List.any_append]
  by_cases hk : known.any (fun k => k.id == e.id)
  · simp [hk]
  · have hmem : e ∈ batch.filter
        (fun e => ! known.any (fun k => k.id == e.id)) :=
      List.mem_filter.mpr ⟨he, by simp [hk]⟩
    have hany : (batch.filter
        (fun e => ! known.any (fun k => k.id == e.id))).any
          (fun k => k.id == e.id) = true :=
      List.any_eq_true.mpr ⟨e, hmem, by simp⟩
    simp [hany]

/-- Claim C2: merging a delta batch is idempotent by event id — re-merging the
same batch changes nothing, and prepending an event whose id is already known
to the batch leaves the merged sequence (and hence its order) unchanged. -/
theorem mergeDelta_idempotent (known batch : List AgentEvent) :
    mergeDelta (mergeDelta known batch) batch = mergeDelta known batch ∧
      ∀ e : AgentEvent, known.any (fun k => k.id == e.id) = true →
        mergeDelta known (e :: batch) = mergeDelta known batch := by
  constructor
  · conv_lhs => rw [mergeDelta]
    rw [mergeDelta_filter_nil, List.append_nil]
  · intro e he
    unfold mergeDelta
    rw [List.filter_cons]
    simp [he]

/-- Claim C2, witness: re-merging a concrete overlapping batch is a no-op and
re-delivering a known event adds nothing. -/
theorem mergeDelta_idempotent_witness :
    mergeDelta (mergeDelta [messageAt 0 5] [messageAt 0 5, progressAt 1 10])
        [messageAt 0 5, progressAt 1 10] =
      mergeDelta [messageAt 0 5] [messageAt 0 5, progressAt 1 10] ∧
      mergeDelta [messageAt 0 5] (messageAt 0 5 :: [progressAt 1 10]) =
        mergeDelta [messageAt 0 5] [progressAt 1 10] :=
  ⟨(mergeDelta_idempotent [messageAt 0 5] [messageAt 0 5, progressAt 1 10]).1,
    (mergeDelta_idempotent [messageAt 0 5] [progressAt 1 10]).2
      (messageAt 0 5) (by decide)⟩

/-! ## C5 — not-found on Hydrate -/

/-- Claim C5, counterexample: after a not-found result on `fetchThreadState`
(HTTP 404 on an unknown id), `hydrateState` returns early — the previous state
and its thread binding are kept verbatim and no Bootstrap read is issued, so
the client does not fall back to Bootstrap. -/
theorem hydrateState_notFound_keeps_binding :
    hydrateState 1000 (some "thread-unknown") (FetchOutcome.httpError 404)
        sampleState = sampleState ∧
      sampleState.threadId = some "thread-1" ∧
      ClientRequest.bootstrapRead ∉
        hydrateFollowUps (FetchOutcome.httpError 404) := by decide

/-- Claim C5 (amended): an unknown thread id yields a not-found (`null`)
result from `fetchThreadState`, and `hydrateState` then returns early: the
client keeps its previous state, thread binding included, and issues no
Bootstrap read — Bootstrap runs only once on mount, not as a fallback. -/
theorem hydrateState_notFound_noop (now status : Nat) (id : Option String)
    (s : ClientState) :
    fetchThreadState (FetchOutcome.httpError status) = none ∧
      hydrateState now id (FetchOutcome.httpError status) s = s ∧
      hydrateFollowUps (FetchOutcome.httpError status) = [] := by
  refine ⟨rfl, ?_, rfl⟩
  unfold hydrateState
  split
  · rfl
  · rfl

/-! ## C9 — Hydrate applies no staleness filter -/

/-- Stale progress_update as delivered on the wire (timestamp 0). -/
def staleProgressWire : WireEvent :=
  { id := 9, type := EventType.progress_update, agent := "Triage",
    content := "working", metadata := [], timestamp := some 0 }

/-- Snapshot carrying only the stale progress_update. -/
def staleSnapshot : Snapshot :=
  { thread_id := some "thread-1", current_agent := some "Triage",
    agents := none, context := none, events := some [staleProgressWire],
    guardrails := none }

/-- Claim C9: a successful `hydrateState` stores exactly the delivered events
in delivered order, only parsing timestamps — no staleness filtering — while
the bootstrap path pipes the same events through `normalizeEvents`; hence a
Hydrate snapshot displays an arbitrarily old progress_update that Bootstrap
would drop. -/
theorem hydrateState_events_verbatim (now : Nat) (id : String) (d : Snapshot)
    (evs : List WireEvent) (s : ClientState) (hid : id ≠ "")
    (hevs : d.events = some evs) :
    (hydrateState now (some id) (FetchOutcome.ok d) s).events =
        evs.map (parseWireEvent now) ∧
      (hydrateState 20000 (some "thread-1") (FetchOutcome.ok staleSnapshot)
          sampleState).events = [progressAt 9 0] ∧
      (bootstrapApply 20000 (FetchOutcome.ok staleSnapshot)
          sampleState).events = [] := by
  refine ⟨?_, by decide, by decide⟩
  unfold hydrateState
  rw [if_neg (by simp [hid])]
  show (match fetchThreadState (FetchOutcome.ok d) with
    | none => s
    | some d => _).events = _
  simp only [fetchThreadState]
  rw [hevs]

/-- Claim C9, witness: the verbatim-events equation evaluated on the stale
snapshot. -/
theorem hydrateState_events_verbatim_witness :
    (hydrateState 20000 (some "thread-1") (FetchOutcome.ok staleSnapshot)
        sampleState).events = [staleProgressWire].map (parseWireEvent 20000) :=
  (hydrateState_events_verbatim 20000 "thread-1" staleSnapshot
    [staleProgressWire] sampleState (by decide) (by decide)).1

/-! ## C10 — fetch failures leave the client state untouched -/

/-- Claim C10: a non-OK HTTP status or a thrown network error makes
`fetchThreadState` / `fetchBootstrapState` return `null`, and the callers
(`hydrateState` and the bootstrap effect) then return early, leaving every
piece of display state exactly as it was — errors never partially update the
state. -/
theorem fetchFailure_preserves_state (now status : Nat) (id : Option String)
    (s : ClientState) :
    fetchThreadState (FetchOutcome.httpError status) = none ∧
      fetchThreadState FetchOutcome.networkError = none ∧
      fetchBootstrapState (FetchOutcome.httpError status) = none ∧
      fetchBootstrapState FetchOutcome.networkError = none ∧
      hydrateState now id (FetchOutcome.httpError status) s = s ∧
      hydrateState now id FetchOutcome.networkError s = s ∧
      bootstrapApply now (FetchOutcome.httpError status) s = s ∧
      bootstrapApply now FetchOutcome.networkError s = s := by
  refine ⟨rfl, rfl, rfl, rfl, ?_, ?_, rfl, rfl⟩ <;>
    · unfold hydrateState
      split
      · rfl
      · rfl

/-! ## C8 — every tool_call gets exactly one tool_output -/

/-- Claim C8: the engine's tool invocation appends the `tool_call` event, then
exactly one `tool_output` event carrying the result or an error payload, on
every path (success, failure, timeout); and it preserves pairing — a log in
which every `tool_call` is followed by a same-agent `tool_output` stays so, so
no terminal log holds a `tool_call` without its paired `tool_output`. -/
theorem runToolInvocation_paired (log : List AgentEvent) (callId outId : Nat)
    (agent tool args : String) (outcome : ToolOutcome) (t1 t2 : Nat)
    (h : PairedLog log) :
    runToolInvocation log callId outId agent tool args outcome t1 t2 =
        log ++ [mkToolCall callId agent tool args t1,
          mkToolOutput outId agent outcome t2] ∧
      (runToolInvocation log callId outId agent tool args outcome t1 t2).countP
          (fun e => e.type = EventType.tool_output) =
        log.countP (fun e => e.type = EventType.tool_output) + 1 ∧
      PairedLog
        (runToolInvocation log callId outId agent tool args outcome t1 t2) := by
  have heq : runToolInvocation log callId outId agent tool args outcome t1 t2 =
      log ++ [mkToolCall callId agent tool args t1,
        mkToolOutput outId agent outcome t2] := by
    simp [runToolInvocation]
  refine ⟨heq, ?_, ?_⟩
  · rw [heq, List.countP_append]
    simp [mkToolCall, mkToolOutput, List.countP_cons]
  · rw [heq]
    intro i e hi he
    by_cases hiL : i < log.length
    · rw [List.getElem?_append, if_pos hiL] at hi
      obtain ⟨j, f, hij, hj, hf1, hf2⟩ := h i e hi he
      have hjL : j < log.length := by
        by_contra hc
        push_neg at hc
        rw [List.getElem?_eq_none hc] at hj
        exact Option.noConfusion hj
      exact ⟨j, f, hij, by rw [List.getElem?_append, if_pos hjL]; exact hj,
        hf1, hf2⟩
    · push_neg at hiL
      rw [List.getElem?_append, if_neg (by omega)] at hi
      have hlt : i - log.length < 2 := by
        by_contra hc
        push_neg at hc
        rw [List.getElem?_eq_none (by simpa using hc)] at hi
        exact Option.noConfusion hi
      rcases (by omega : i - log.length = 0 ∨ i - log.length = 1) with h0 | h1
      · rw [h0] at hi
        simp only [List.getElem?_cons_zero, Option.some.injEq] at hi
        subst hi
        refine ⟨i + 1, mkToolOutput outId agent outcome t2,
          Nat.lt_succ_self i, ?_, rfl, rfl⟩
        rw [List.getElem?_append, if_neg (by omega),
          show i + 1 - log.length = 1 by omega]
        rfl
      · rw [h1] at hi
        simp only [List.getElem?_cons_succ, List.getElem?_cons_zero,
          Option.some.injEq] at hi
        subst hi
        exact absurd he (by simp [mkToolOutput])

/-- Claim C8, witness: pairing holds for a concrete failed invocation appended
to the empty log. -/
theorem runToolInvocation_paired_witness :
    PairedLog
      (runToolInvocation [] 1 2 "SeatAgent" "lookup_seat" "14C"
        (ToolOutcome.failure "boom") 10 20) :=
  (runToolInvocation_paired [] 1 2 "SeatAgent" "lookup_seat" "14C"
    (ToolOutcome.failure "boom") 10 20
    (by intro i e hi he; simp at hi)).2.2
